import Mathlib

/-!
Verification of the admission-control and finalization subsystem of the
ticket-reservation service (`app/services/bookings.py`, with the data model
from `app/models/events.py` and `app/models/books.py` and the HTTP layer from
`app/routes/`).

The database is modelled as an explicit state: the `events` table, the
`bookings` table, and the auto-increment counters for the two primary keys.
Each service function is a pure state transformer; the surrounding SQL
transaction (`with db.begin()`) is modelled by returning the original state
whenever the function raises, since the transaction is rolled back in that
case.  The Redis admission lock and the possibility of a persistence-layer
error during the ledger INSERT are environment inputs (`Env`); the sequence
of lock/transaction primitives executed by `create_booking` is recorded in a
trace of `LockAction`s so that the release-on-every-exit-path discipline of
the `try/finally` block can be stated.
-/

namespace TicketReserve

/-- `BookingStatus` enum from `app/models/books.py`. -/
inductive BookingStatus
  | PENDING
  | FINALIZED
  deriving DecidableEq, Repr

/-- A row of the `events` table (`app/models/events.py`): id (primary key),
title, capacity, booked_count. -/
structure Event where
  id : Nat
  title : String
  capacity : Nat
  booked_count : Nat
  deriving DecidableEq, Repr

/-- A row of the `bookings` table (`app/models/books.py`): id (primary key),
event_id (foreign key), user_id, status, created_at (server timestamp,
modelled as a Nat supplied by the caller). -/
structure Booking where
  id : Nat
  event_id : Nat
  user_id : Nat
  status : BookingStatus
  created_at : Nat
  deriving DecidableEq, Repr

/-- The committed database state: both tables plus the auto-increment
counters backing the two integer primary keys. -/
structure DB where
  events : List Event
  bookings : List Booking
  nextEventId : Nat
  nextBookingId : Nat
  deriving DecidableEq, Repr

/-- The empty database produced by the schema migration. -/
def DB.init : DB := ⟨[], [], 1, 1⟩

/-- The WHERE clause of the conditional UPDATE in
`_create_booking_in_transaction`: `Event.id == event_id` and
`Event.booked_count < Event.capacity`. -/
def wantsUpdate (event_id : Nat) (e : Event) : Bool :=
  e.id == event_id && decide (e.booked_count < e.capacity)

/-- The SET clause applied to a row matched by the WHERE clause:
`booked_count = booked_count + 1`. -/
def bumpIfMatch (event_id : Nat) (e : Event) : Event :=
  if wantsUpdate event_id e then { e with booked_count := e.booked_count + 1 } else e

/-- The conditional UPDATE statement of `_create_booking_in_transaction`:
increments `booked_count` on every row satisfying the WHERE clause and
reports the affected-row count (`res.rowcount`). -/
def condIncrement (events : List Event) (event_id : Nat) : List Event × Nat :=
  (events.map (bumpIfMatch event_id), events.countP (wantsUpdate event_id))

/-- The two kinds of exceptions that can escape the critical section:
`SoldOutError` (surfaced as HTTP 409 / the spec's `Rejected`), and any other
persistence-layer error raised by the ledger INSERT. -/
inductive BookError
  | soldOut
  | persistence
  deriving DecidableEq, Repr

/-- Primitive actions performed by `create_booking`, in execution order:
lock acquisition, transaction commit, transaction rollback, lock release
(the `finally` block), and propagation of an exception to the caller. -/
inductive LockAction
  | acquire
  | release
  | commit
  | rollback
  | raiseErr (e : BookError)
  deriving DecidableEq, Repr

/-- Environment behaviour outside the program's control: whether
`lock.acquire(blocking=True, blocking_timeout=5)` obtains the Redis lock
within its wait timeout, and whether the ledger INSERT (`db.add`/`db.flush`)
raises a persistence-layer error. -/
structure Env where
  acquireOk : Bool
  insertFails : Bool
  deriving DecidableEq, Repr

/-- Result of one `create_booking` call: the committed database state after
the call, the returned booking or propagated exception, and the trace of
lock/transaction primitives executed. -/
structure BookOutcome where
  db : DB
  result : Except BookError Booking
  trace : List LockAction
  deriving Repr

/-- `_create_booking_in_transaction`: run the conditional UPDATE; if the
affected-row count is not 1 raise `SoldOutError`; otherwise INSERT a PENDING
booking row (which the environment may make fail) and return it. -/
def _create_booking_in_transaction (db : DB) (event_id user_id now : Nat)
    (insertFails : Bool) : Except BookError (DB × Booking) :=
  let res := condIncrement db.events event_id
  if res.2 ≠ 1 then .error .soldOut
  else if insertFails then .error .persistence
  else
    let booking : Booking :=
      { id := db.nextBookingId, event_id := event_id, user_id := user_id,
        status := BookingStatus.PENDING, created_at := now }
    .ok ({ db with events := res.1,
                   bookings := db.bookings ++ [booking],
                   nextBookingId := db.nextBookingId + 1 }, booking)

/-- `create_booking`: acquire the per-event Redis lock (on timeout raise
`SoldOutError`); inside the lock run `_create_booking_in_transaction` under
`with db.begin()`, which commits on success and rolls back on any exception;
the `finally` block releases the lock on every exit path before the
exception propagates. -/
def create_booking (env : Env) (db : DB) (event_id user_id now : Nat) : BookOutcome :=
  if env.acquireOk = false then
    { db := db, result := .error .soldOut, trace := [.raiseErr .soldOut] }
  else
    match _create_booking_in_transaction db event_id user_id now env.insertFails with
    | .error e =>
        { db := db, result := .error e,
          trace := [.acquire, .rollback, .release, .raiseErr e] }
    | .ok (db2, b) =>
        { db := db2, result := .ok b, trace := [.acquire, .commit, .release] }

/-- The single-row mutation performed by `_finalize_booking_in_transaction`
on the row found by primary key: `booking.status = FINALIZED`. -/
def setFinalized (booking_id : Nat) (b : Booking) : Booking :=
  if b.id == booking_id then { b with status := BookingStatus.FINALIZED } else b

/-- `_finalize_booking_in_transaction`: look the booking up by primary key
(`db.get`); if absent return without touching the state; otherwise set its
status to FINALIZED. -/
def _finalize_booking_in_transaction (db : DB) (booking_id : Nat) : DB :=
  match db.bookings.find? (fun b => b.id == booking_id) with
  | none => db
  | some _ => { db with bookings := db.bookings.map (setFinalized booking_id) }

/-- `finalize_booking`: run `_finalize_booking_in_transaction` inside a
transaction (both branches of the `in_transaction()` check commit the same
single-row update). -/
def finalize_booking (db : DB) (booking_id : Nat) : DB :=
  _finalize_booking_in_transaction db booking_id

/-- The dict returned by `get_event_stats` for an existing event. -/
structure EventStats where
  event_id : Nat
  capacity : Nat
  booked_count : Nat
  finalized_count : Nat
  deriving DecidableEq, Repr

/-- `get_event_stats`: look the event up by primary key; if absent return
the empty dict (modelled as `none`); otherwise report its capacity, its
booked_count, and the count of FINALIZED bookings owned by it. -/
def get_event_stats (db : DB) (event_id : Nat) : Option EventStats :=
  match db.events.find? (fun e => e.id == event_id) with
  | none => none
  | some e =>
      some { event_id := e.id, capacity := e.capacity,
             booked_count := e.booked_count,
             finalized_count :=
               (db.bookings.filter (fun b =>
                 b.event_id == event_id
                   && b.status == BookingStatus.FINALIZED)).length }

/-- `GET /event/:event_id/stats` (`app/routes/events.py`): answer 404 when
the service returns the empty dict, else the stats. -/
def event_stats_route (db : DB) (event_id : Nat) : Except Nat EventStats :=
  match get_event_stats db event_id with
  | none => .error 404
  | some s => .ok s

/-- The dict returned by `get_overall_report`. -/
structure Report where
  total_capacity : Nat
  total_reserved : Nat
  total_finalized : Nat
  deriving DecidableEq, Repr

/-- `get_overall_report`: aggregate totals across all events. -/
def get_overall_report (db : DB) : Report :=
  { total_capacity := (db.events.map Event.capacity).sum,
    total_reserved := (db.events.map Event.booked_count).sum,
    total_finalized :=
      (db.bookings.filter (fun b => b.status == BookingStatus.FINALIZED)).length }

/-- `POST /event` (`app/routes/events.py`): insert a new event with
`booked_count = 0` under a fresh primary key. -/
def create_event (db : DB) (title : String) (capacity : Nat) : DB × Event :=
  let e : Event := { id := db.nextEventId, title := title,
                     capacity := capacity, booked_count := 0 }
  ({ db with events := db.events ++ [e], nextEventId := db.nextEventId + 1 }, e)

/-- One externally triggered operation against the service. -/
inductive Op
  | createEvent (title : String) (capacity : Nat)
  | createBooking (env : Env) (event_id user_id now : Nat)
  | finalizeBooking (booking_id : Nat)
  | getStats (event_id : Nat)
  | report

/-- The committed state after one operation (reads leave it unchanged). -/
def step (db : DB) : Op → DB
  | Op.createEvent t c => (create_event db t c).1
  | Op.createBooking env eid uid now => (create_booking env db eid uid now).db
  | Op.finalizeBooking bid => finalize_booking db bid
  | Op.getStats _ => db
  | Op.report => db

/-- The committed state after a sequence of operations. -/
def run (db : DB) (ops : List Op) : DB := ops.foldl step db

/-- Number of booking rows owned by the given event. -/
def countBookings (db : DB) (event_id : Nat) : Nat :=
  db.bookings.countP (fun b => b.event_id == event_id)

/-- `booked_count` of the event row with the given id, if present. -/
def bookedOf (db : DB) (event_id : Nat) : Option Nat :=
  (db.events.find? (fun e => e.id == event_id)).map Event.booked_count

-- ### Helper lemmas

theorem setFinalized_id (bid : Nat) (b : Booking) :
    (setFinalized bid b).id = b.id := by
  unfold setFinalized; split <;> rfl

theorem setFinalized_event_id (bid : Nat) (b : Booking) :
    (setFinalized bid b).event_id = b.event_id := by
  unfold setFinalized; split <;> rfl

theorem setFinalized_user_id (bid : Nat) (b : Booking) :
    (setFinalized bid b).user_id = b.user_id := by
  unfold setFinalized; split <;> rfl

theorem setFinalized_created_at (bid : Nat) (b : Booking) :
    (setFinalized bid b).created_at = b.created_at := by
  unfold setFinalized; split <;> rfl

theorem setFinalized_idem (bid : Nat) (b : Booking) :
    setFinalized bid (setFinalized bid b) = setFinalized bid b := by
  unfold setFinalized
  by_cases h : (b.id == bid) = true <;> simp [h]

theorem setFinalized_of_ne (bid : Nat) (b : Booking) (h : b.id ≠ bid) :
    setFinalized bid b = b := by
  unfold setFinalized
  simp [h]

/-- When a booking with the given id exists, `finalize_booking` rewrites the
whole ledger through `setFinalized`. -/
theorem finalize_booking_eq_map (db : DB) (bid : Nat)
    (h : ∃ b ∈ db.bookings, b.id = bid) :
    finalize_booking db bid =
      { db with bookings := db.bookings.map (setFinalized bid) } := by
  obtain ⟨b, hb, hid⟩ := h
  unfold finalize_booking _finalize_booking_in_transaction
  have hsome : (db.bookings.find? (fun b => b.id == bid)).isSome := by
    rw [List.find?_isSome]
    exact ⟨b, hb, by simp [hid]⟩
  obtain ⟨b0, hb0⟩ := Option.isSome_iff_exists.mp hsome
  rw [hb0]

/-- When no booking with the given id exists, `finalize_booking` leaves the
state unchanged. -/
theorem finalize_booking_eq_self (db : DB) (bid : Nat)
    (h : ∀ b ∈ db.bookings, b.id ≠ bid) :
    finalize_booking db bid = db := by
  unfold finalize_booking _finalize_booking_in_transaction
  have hnone : db.bookings.find? (fun b => b.id == bid) = none := by
    rw [List.find?_eq_none]
    intro x hx
    simpa using h x hx
  rw [hnone]

theorem finalize_booking_events (db : DB) (bid : Nat) :
    (finalize_booking db bid).events = db.events := by
  unfold finalize_booking _finalize_booking_in_transaction
  split <;> rfl

-- ### C5, C6, C10

/-- Idempotence of the finalization update, independent of whether the
booking exists. -/
theorem finalize_booking_idem (db : DB) (bid : Nat) :
    finalize_booking (finalize_booking db bid) bid = finalize_booking db bid := by
  by_cases h : ∃ b ∈ db.bookings, b.id = bid
  · obtain ⟨b, hb, hid⟩ := h
    rw [finalize_booking_eq_map db bid ⟨b, hb, hid⟩]
    rw [finalize_booking_eq_map _ bid
      ⟨setFinalized bid b, List.mem_map_of_mem _ hb, by rw [setFinalized_id]; exact hid⟩]
    have hff : (setFinalized bid) ∘ (setFinalized bid) = setFinalized bid :=
      funext (setFinalized_idem bid)
    simp [List.map_map, hff]
  · push_neg at h
    rw [finalize_booking_eq_self db bid h, finalize_booking_eq_self db bid h]

/-- C5: finalize_booking is idempotent — one call on an existing booking id
sets that booking's status to FINALIZED, and any further call leaves the
committed state exactly as after the first call. -/
theorem finalize_booking_idempotent (db : DB) (bid : Nat)
    (h : ∃ b ∈ db.bookings, b.id = bid) :
    (∀ b ∈ (finalize_booking db bid).bookings,
        b.id = bid → b.status = BookingStatus.FINALIZED)
    ∧ finalize_booking (finalize_booking db bid) bid = finalize_booking db bid := by
  constructor
  · rw [finalize_booking_eq_map db bid h]
    intro b hb hbid
    simp only [List.mem_map] at hb
    obtain ⟨a, _, rfl⟩ := hb
    unfold setFinalized
    by_cases ha : (a.id == bid) = true
    · simp [ha]
    · rw [setFinalized_id] at hbid
      simp [hbid] at ha
  · exact finalize_booking_idem db bid

/-- A concrete database used to instantiate theorems with hypotheses. -/
def dbW : DB :=
  { events := [{ id := 1, title := "t", capacity := 2, booked_count := 1 }],
    bookings := [{ id := 1, event_id := 1, user_id := 7,
                   status := BookingStatus.PENDING, created_at := 0 }],
    nextEventId := 2, nextBookingId := 2 }

/-- C5 witness: the idempotence theorem instantiated on a one-booking
database. -/
theorem finalize_booking_idempotent_check :
    (∀ b ∈ (finalize_booking dbW 1).bookings,
        b.id = 1 → b.status = BookingStatus.FINALIZED)
    ∧ finalize_booking (finalize_booking dbW 1) 1 = finalize_booking dbW 1 :=
  finalize_booking_idempotent dbW 1
    ⟨{ id := 1, event_id := 1, user_id := 7,
       status := BookingStatus.PENDING, created_at := 0 }, by decide, rfl⟩

/-- C6: finalize_booking on an id absent from the ledger returns without
error (it is total) and leaves the entire committed state unchanged. -/
theorem finalize_booking_absent_noop (db : DB) (bid : Nat)
    (h : ∀ b ∈ db.bookings, b.id ≠ bid) :
    finalize_booking db bid = db :=
  finalize_booking_eq_self db bid h

/-- C6 witness: finalizing an unknown id on the empty database is a no-op. -/
theorem finalize_booking_absent_noop_check :
    finalize_booking DB.init 5 = DB.init :=
  finalize_booking_absent_noop DB.init 5 (by intro b hb; simp [DB.init] at hb)

/-- C10: finalize_booking on an existing booking id modifies only the status
field of rows carrying that id: the events table, the id counters, the
ledger's length, and every row's id, event_id, user_id and created_at are
preserved, and every row whose id differs is untouched. -/
theorem finalize_booking_frame (db : DB) (bid : Nat)
    (h : ∃ b ∈ db.bookings, b.id = bid) :
    (finalize_booking db bid).events = db.events
    ∧ (finalize_booking db bid).nextEventId = db.nextEventId
    ∧ (finalize_booking db bid).nextBookingId = db.nextBookingId
    ∧ (finalize_booking db bid).bookings.length = db.bookings.length
    ∧ (∀ i : Nat,
        ((finalize_booking db bid).bookings[i]?).map Booking.id
            = (db.bookings[i]?).map Booking.id
        ∧ ((finalize_booking db bid).bookings[i]?).map Booking.event_id
            = (db.bookings[i]?).map Booking.event_id
        ∧ ((finalize_booking db bid).bookings[i]?).map Booking.user_id
            = (db.bookings[i]?).map Booking.user_id
        ∧ ((finalize_booking db bid).bookings[i]?).map Booking.created_at
            = (db.bookings[i]?).map Booking.created_at)
    ∧ (∀ b ∈ db.bookings, b.id ≠ bid →
        ∀ i : Nat, db.bookings[i]? = some b →
          (finalize_booking db bid).bookings[i]? = some b) := by
  rw [finalize_booking_eq_map db bid h]
  refine ⟨rfl, rfl, rfl, by simp, ?_, ?_⟩
  · intro i
    refine ⟨?_, ?_, ?_, ?_⟩ <;>
      · simp only [List.getElem?_map, Option.map_map]
        cases db.bookings[i]? with
        | none => rfl
        | some b =>
            simp [setFinalized_id, setFinalized_event_id,
              setFinalized_user_id, setFinalized_created_at]
  · intro b _ hbne i hi
    simp only [List.getElem?_map, hi]
    simp [setFinalized_of_ne bid b hbne]

/-- C10 witness: the frame theorem instantiated on a one-booking database. -/
theorem finalize_booking_frame_check :
    (finalize_booking dbW 1).events = dbW.events
    ∧ (finalize_booking dbW 1).nextEventId = dbW.nextEventId
    ∧ (finalize_booking dbW 1).nextBookingId = dbW.nextBookingId
    ∧ (finalize_booking dbW 1).bookings.length = dbW.bookings.length
    ∧ (∀ i : Nat,
        ((finalize_booking dbW 1).bookings[i]?).map Booking.id
            = (dbW.bookings[i]?).map Booking.id
        ∧ ((finalize_booking dbW 1).bookings[i]?).map Booking.event_id
            = (dbW.bookings[i]?).map Booking.event_id
        ∧ ((finalize_booking dbW 1).bookings[i]?).map Booking.user_id
            = (dbW.bookings[i]?).map Booking.user_id
        ∧ ((finalize_booking dbW 1).bookings[i]?).map Booking.created_at
            = (dbW.bookings[i]?).map Booking.created_at)
    ∧ (∀ b ∈ dbW.bookings, b.id ≠ 1 →
        ∀ i : Nat, dbW.bookings[i]? = some b →
          (finalize_booking dbW 1).bookings[i]? = some b) :=
  finalize_booking_frame dbW 1
    ⟨{ id := 1, event_id := 1, user_id := 7,
       status := BookingStatus.PENDING, created_at := 0 }, by decide, rfl⟩

-- ### Database well-formedness and the capacity invariant

theorem bumpIfMatch_id (k : Nat) (e : Event) : (bumpIfMatch k e).id = e.id := by
  unfold bumpIfMatch; split <;> rfl

theorem wantsUpdate_spec {k : Nat} {e : Event} (h : wantsUpdate k e = true) :
    e.id = k ∧ e.booked_count < e.capacity := by
  unfold wantsUpdate at h
  simp only [Bool.and_eq_true, beq_iff_eq, decide_eq_true_eq] at h
  exact h

/-- State invariant maintained by every operation: primary keys of the
events table are distinct and below the auto-increment counter, bookings
reference only allocated event ids, and every event's `booked_count` equals
the number of booking rows it owns and stays within its capacity. -/
def Inv (db : DB) : Prop :=
  (db.events.map Event.id).Nodup
  ∧ (∀ e ∈ db.events, e.id < db.nextEventId)
  ∧ (∀ b ∈ db.bookings, b.event_id < db.nextEventId)
  ∧ (∀ e ∈ db.events, countBookings db e.id = e.booked_count
      ∧ e.booked_count ≤ e.capacity)

theorem inv_init : Inv DB.init := by
  refine ⟨?_, ?_, ?_, ?_⟩ <;> simp [DB.init, Inv]

theorem inv_create_event (db : DB) (t : String) (c : Nat) (h : Inv db) :
    Inv (create_event db t c).1 := by
  obtain ⟨h1, h2, h3, h4⟩ := h
  unfold create_event
  refine ⟨?_, ?_, ?_, ?_⟩
  · simp only [List.map_append, List.map_cons, List.map_nil]
    rw [List.nodup_append]
    refine ⟨h1, by simp, ?_⟩
    intro a ha hb
    simp only [List.mem_map] at ha
    obtain ⟨e, he, rfl⟩ := ha
    simp only [List.mem_singleton] at hb
    exact absurd hb (Nat.ne_of_lt (h2 e he))
  · intro e he
    rcases List.mem_append.mp he with he | he
    · exact Nat.lt_trans (h2 e he) (Nat.lt_succ_self _)
    · simp only [List.mem_singleton] at he
      subst he
      exact Nat.lt_succ_self _
  · intro b hb
    exact Nat.lt_trans (h3 b hb) (Nat.lt_succ_self _)
  · intro e he
    rcases List.mem_append.mp he with he | he
    · exact h4 e he
    · simp only [List.mem_singleton] at he
      subst he
      constructor
      · unfold countBookings
        simp only
        rw [List.countP_eq_zero]
        intro b hb
        simp only [beq_iff_eq]
        exact Nat.ne_of_lt (h3 b hb)
      · exact Nat.zero_le _

/-- The two possible committed outcomes of one `create_booking` call: either
the state is unchanged (lock timeout or rollback), or exactly one event row
matched the conditional update and the state gained one increment plus one
PENDING booking row. -/
theorem create_booking_db_cases (env : Env) (db : DB) (eid uid now : Nat) :
    (create_booking env db eid uid now).db = db
    ∨ (db.events.countP (wantsUpdate eid) = 1
       ∧ (create_booking env db eid uid now).db =
          { db with events := db.events.map (bumpIfMatch eid),
                    bookings := db.bookings ++
                      [{ id := db.nextBookingId, event_id := eid, user_id := uid,
                         status := BookingStatus.PENDING, created_at := now }],
                    nextBookingId := db.nextBookingId + 1 }) := by
  unfold create_booking _create_booking_in_transaction condIncrement
  by_cases hacq : env.acquireOk = false
  · simp [hacq]
  · simp only [hacq, if_false]
    by_cases hcnt : db.events.countP (wantsUpdate eid) = 1
    · by_cases hins : env.insertFails
      · simp [hcnt, hins]
      · simp [hcnt, hins]
    · simp [hcnt]

theorem inv_create_booking (env : Env) (db : DB) (eid uid now : Nat)
    (h : Inv db) : Inv (create_booking env db eid uid now).db := by
  rcases create_booking_db_cases env db eid uid now with hdb | ⟨hcnt, hdb⟩
  · rw [hdb]; exact h
  · obtain ⟨h1, h2, h3, h4⟩ := h
    rw [hdb]
    have hmapid : (db.events.map (bumpIfMatch eid)).map Event.id
        = db.events.map Event.id := by
      rw [List.map_map]
      exact List.map_congr_left (fun e _ => bumpIfMatch_id eid e)
    obtain ⟨ew, hew, hewP⟩ :=
      List.countP_pos_iff.mp (by rw [hcnt]; exact Nat.zero_lt_one)
    have heid : ew.id = eid := (wantsUpdate_spec hewP).1
    refine ⟨?_, ?_, ?_, ?_⟩
    · simpa only [hmapid] using h1
    · intro e he
      simp only [List.mem_map] at he
      obtain ⟨e0, he0, rfl⟩ := he
      rw [bumpIfMatch_id]
      exact h2 e0 he0
    · intro b hb
      rcases List.mem_append.mp hb with hb | hb
      · exact h3 b hb
      · simp only [List.mem_singleton] at hb
        subst hb
        simpa only [heid] using h2 ew hew
    · intro e he
      simp only [List.mem_map] at he
      obtain ⟨e0, he0, rfl⟩ := he
      have hcountSplit : countBookings
          { db with events := db.events.map (bumpIfMatch eid),
                    bookings := db.bookings ++
                      [{ id := db.nextBookingId, event_id := eid, user_id := uid,
                         status := BookingStatus.PENDING, created_at := now }],
                    nextBookingId := db.nextBookingId + 1 } (bumpIfMatch eid e0).id
          = countBookings db e0.id + (if eid = e0.id then 1 else 0) := by
        unfold countBookings
        simp only [bumpIfMatch_id, List.countP_append, List.countP_cons,
          List.countP_nil, beq_iff_eq]
        rw [Nat.zero_add]
      by_cases hid : e0.id = eid
      · have hwant : wantsUpdate eid e0 = true := by
          by_contra hw
          have : ew = e0 :=
            List.inj_on_of_nodup_map h1 hew he0 (by rw [heid, hid])
          rw [this] at hewP
          exact hw hewP
        have hlt : e0.booked_count < e0.capacity := (wantsUpdate_spec hwant).2
        constructor
        · rw [hcountSplit, if_pos hid.symm]
          unfold bumpIfMatch
          rw [if_pos hwant]
          simp only
          rw [(h4 e0 he0).1]
        · unfold bumpIfMatch
          rw [if_pos hwant]
          exact hlt
      · have hwant : wantsUpdate eid e0 = false := by
          unfold wantsUpdate
          simp only [Bool.and_eq_false_iff, beq_eq_false_iff_ne, ne_eq]
          exact Or.inl hid
        constructor
        · rw [hcountSplit]
          rw [if_neg (fun hh => hid hh.symm)]
          unfold bumpIfMatch
          rw [if_neg (by simp [hwant])]
          simpa using (h4 e0 he0).1
        · unfold bumpIfMatch
          rw [if_neg (by simp [hwant])]
          exact (h4 e0 he0).2

theorem inv_finalize_booking (db : DB) (bid : Nat) (h : Inv db) :
    Inv (finalize_booking db bid) := by
  obtain ⟨h1, h2, h3, h4⟩ := h
  unfold finalize_booking _finalize_booking_in_transaction
  split
  · exact ⟨h1, h2, h3, h4⟩
  · refine ⟨h1, h2, ?_, ?_⟩
    · intro b hb
      simp only [List.mem_map] at hb
      obtain ⟨b0, hb0, rfl⟩ := hb
      rw [setFinalized_event_id]
      exact h3 b0 hb0
    · intro e he
      have : countBookings
          { db with bookings := db.bookings.map (setFinalized bid) } e.id
          = countBookings db e.id := by
        unfold countBookings
        simp only [List.countP_map]
        refine List.countP_congr ?_
        intro b _
        simp [Function.comp, setFinalized_event_id]
      rw [this]
      exact h4 e he

theorem inv_step (db : DB) (op : Op) (h : Inv db) : Inv (step db op) := by
  cases op with
  | createEvent t c => exact inv_create_event db t c h
  | createBooking env eid uid now => exact inv_create_booking env db eid uid now h
  | finalizeBooking bid => exact inv_finalize_booking db bid h
  | getStats _ => exact h
  | report => exact h

theorem inv_run (ops : List Op) (db : DB) (h : Inv db) : Inv (run db ops) := by
  induction ops generalizing db with
  | nil => exact h
  | cons op rest ih => exact ih (step db op) (inv_step db op h)

-- ### C1, C2

/-- C1: in every committed state reachable by any sequence of operations,
every event satisfies 0 ≤ booked_count ≤ capacity, and the number of booking
rows ever created for it (rows are never deleted) is at most its capacity. -/
theorem no_overselling (ops : List Op) (e : Event)
    (he : e ∈ (run DB.init ops).events) :
    0 ≤ e.booked_count ∧ e.booked_count ≤ e.capacity
    ∧ countBookings (run DB.init ops) e.id ≤ e.capacity := by
  obtain ⟨-, -, -, h4⟩ := inv_run ops DB.init inv_init
  obtain ⟨hcount, hcap⟩ := h4 e he
  exact ⟨Nat.zero_le _, hcap, by rw [hcount]; exact hcap⟩

/-- The environment of a `create_booking` call in which the Redis lock is
acquired and the ledger INSERT succeeds. -/
def okEnv : Env := { acquireOk := true, insertFails := false }

/-- A concrete operation sequence: create an event of capacity 3, then book
one ticket on it. -/
def opsW : List Op := [Op.createEvent "t" 3, Op.createBooking okEnv 1 7 0]

/-- The event row produced by `opsW`. -/
def eW : Event := { id := 1, title := "t", capacity := 3, booked_count := 1 }

/-- C1 witness: the invariant instantiated on the state reached by `opsW`. -/
theorem no_overselling_check :
    0 ≤ eW.booked_count ∧ eW.booked_count ≤ eW.capacity
    ∧ countBookings (run DB.init opsW) eW.id ≤ eW.capacity :=
  no_overselling opsW eW (by decide)

/-- C2: atomicity of `create_booking` — in every reachable committed state
each event's booked_count equals the number of booking rows it owns, and
whenever a `create_booking` call fails (SoldOutError or a persistence error)
the committed state is exactly the state before the call. -/
theorem create_booking_atomic :
    (∀ ops : List Op, ∀ e ∈ (run DB.init ops).events,
        countBookings (run DB.init ops) e.id = e.booked_count)
    ∧ (∀ (env : Env) (db : DB) (eid uid now : Nat) (err : BookError),
        (create_booking env db eid uid now).result = .error err →
        (create_booking env db eid uid now).db = db) := by
  constructor
  · intro ops e he
    exact ((inv_run ops DB.init inv_init).2.2.2 e he).1
  · intro env db eid uid now err herr
    unfold create_booking at herr ⊢
    by_cases hacq : env.acquireOk = false
    · simp [hacq]
    · simp only [hacq, if_false] at herr ⊢
      cases htxn : _create_booking_in_transaction db eid uid now env.insertFails with
      | error e0 => simp [htxn]
      | ok pr =>
          rw [htxn] at herr
          simp at herr

/-- C2 witness: the counter matches the row count on the state reached by
`opsW`, and a lock-timeout failure leaves the empty database unchanged. -/
theorem create_booking_atomic_check :
    countBookings (run DB.init opsW) eW.id = eW.booked_count
    ∧ (create_booking { acquireOk := false, insertFails := false }
        DB.init 1 7 0).db = DB.init :=
  ⟨create_booking_atomic.1 opsW eW (by decide),
   create_booking_atomic.2 { acquireOk := false, insertFails := false }
     DB.init 1 7 0 BookError.soldOut rfl⟩

-- ### C3

/-- The ledger after k successful bookings on event 1 by user 7: PENDING
rows with ids 1..k. -/
def pendingRange (k : Nat) : List Booking :=
  (List.range k).map (fun i =>
    { id := i + 1, event_id := 1, user_id := 7,
      status := BookingStatus.PENDING, created_at := 0 })

/-- The database holding one event of capacity C with k tickets booked,
as reached from `DB.init` by one create_event and k successful bookings. -/
def oneEventDB (C k : Nat) : DB :=
  { events := [{ id := 1, title := "t", capacity := C, booked_count := k }],
    bookings := pendingRange k, nextEventId := 2, nextBookingId := k + 1 }

/-- One booking attempt on event 1 by user 7 with the lock available. -/
def bookOp : Op := Op.createBooking okEnv 1 7 0

theorem create_event_init (C : Nat) :
    (create_event DB.init "t" C).1 = oneEventDB C 0 := rfl

/-- A booking call below capacity succeeds: it increments the counter,
appends the PENDING row with the next id, and commits. -/
theorem create_booking_oneEvent (C k : Nat) (hk : k < C) :
    create_booking okEnv (oneEventDB C k) 1 7 0 =
      { db := oneEventDB C (k + 1),
        result := .ok { id := k + 1, event_id := 1, user_id := 7,
                        status := BookingStatus.PENDING, created_at := 0 },
        trace := [.acquire, .commit, .release] } := by
  unfold create_booking _create_booking_in_transaction condIncrement oneEventDB okEnv
  simp only [List.countP_cons, List.countP_nil, Bool.false_eq_true, if_false]
  have hw : wantsUpdate 1
      { id := 1, title := "t", capacity := C, booked_count := k } = true := by
    unfold wantsUpdate
    simp [hk]
  simp only [hw, if_true, Nat.zero_add]
  have hb : bumpIfMatch 1
      { id := 1, title := "t", capacity := C, booked_count := k } =
      { id := 1, title := "t", capacity := C, booked_count := k + 1 } := by
    unfold bumpIfMatch
    rw [if_pos hw]
  simp only [List.map_cons, List.map_nil, hb]
  have hrange : pendingRange k ++
      [{ id := k + 1, event_id := 1, user_id := 7,
         status := BookingStatus.PENDING, created_at := 0 }] = pendingRange (k + 1) := by
    unfold pendingRange
    rw [List.range_succ, List.map_append]
    rfl
  simp [hrange]

/-- After k ≤ C booking attempts the committed state is `oneEventDB C k`. -/
theorem run_bookOps (C k : Nat) (hk : k ≤ C) :
    run (oneEventDB C 0) (List.replicate k bookOp) = oneEventDB C k := by
  induction k with
  | zero => rfl
  | succ n ih =>
      rw [List.replicate_succ']
      unfold run
      rw [List.foldl_append]
      have hn := ih (Nat.le_of_succ_le hk)
      unfold run at hn
      rw [hn]
      simp only [List.foldl_cons, List.foldl_nil]
      show step (oneEventDB C n) bookOp = oneEventDB C (n + 1)
      unfold step bookOp
      simp only
      rw [create_booking_oneEvent C n (Nat.lt_of_succ_le hk)]

/-- C3: starting from a fresh event of capacity C, C sequential
create_booking calls all succeed, each committing a PENDING booking for the
event; the (C+1)-th call fails with SoldOutError; and the stats afterwards
report booked_count = C. -/
theorem sequential_saturation (C : Nat) :
    (∀ k, k < C →
        (create_booking okEnv (run (create_event DB.init "t" C).1
            (List.replicate k bookOp)) 1 7 0).result =
          .ok { id := k + 1, event_id := 1, user_id := 7,
                status := BookingStatus.PENDING, created_at := 0 })
    ∧ (create_booking okEnv (run (create_event DB.init "t" C).1
          (List.replicate C bookOp)) 1 7 0).result = .error .soldOut
    ∧ (get_event_stats (run (create_event DB.init "t" C).1
          (List.replicate C bookOp)) 1).map EventStats.booked_count = some C := by
  refine ⟨?_, ?_, ?_⟩
  · intro k hk
    rw [create_event_init, run_bookOps C k (Nat.le_of_lt hk),
      create_booking_oneEvent C k hk]
  · rw [create_event_init, run_bookOps C C (Nat.le_refl C)]
    unfold create_booking _create_booking_in_transaction condIncrement oneEventDB okEnv
    have hw : wantsUpdate 1
        { id := 1, title := "t", capacity := C, booked_count := C } = false := by
      unfold wantsUpdate
      simp
    simp [hw]
  · rw [create_event_init, run_bookOps C C (Nat.le_refl C)]
    unfold get_event_stats oneEventDB
    simp

/-- C3 witness: the saturation theorem at capacity 5 — the first call
succeeds, the sixth call is rejected, and stats report booked_count = 5. -/
theorem sequential_saturation_check :
    (create_booking okEnv (run (create_event DB.init "t" 5).1
        (List.replicate 0 bookOp)) 1 7 0).result =
      .ok { id := 1, event_id := 1, user_id := 7,
            status := BookingStatus.PENDING, created_at := 0 }
    ∧ (create_booking okEnv (run (create_event DB.init "t" 5).1
          (List.replicate 5 bookOp)) 1 7 0).result = .error .soldOut
    ∧ (get_event_stats (run (create_event DB.init "t" 5).1
          (List.replicate 5 bookOp)) 1).map EventStats.booked_count = some 5 :=
  ⟨(sequential_saturation 5).1 0 (by decide),
   (sequential_saturation 5).2.1, (sequential_saturation 5).2.2⟩

-- ### C7

/-- In the rollback trace an error propagates only after the release. -/
theorem release_before_raise_err (e0 : BookError) (pre : List LockAction)
    (e : BookError) (post : List LockAction)
    (heq : ([.acquire, .rollback, .release, .raiseErr e0] : List LockAction)
        = pre ++ .raiseErr e :: post)
    (hpre : LockAction.acquire ∈ pre) : LockAction.release ∈ pre := by
  rcases pre with _ | ⟨a1, _ | ⟨a2, _ | ⟨a3, _ | ⟨a4, pre⟩⟩⟩⟩ <;> simp_all

/-- The commit trace raises no error at all. -/
theorem commit_trace_no_raise (pre : List LockAction) (e : BookError)
    (post : List LockAction)
    (heq : ([.acquire, .commit, .release] : List LockAction)
        = pre ++ .raiseErr e :: post) : False := by
  rcases pre with _ | ⟨a1, _ | ⟨a2, _ | ⟨a3, pre⟩⟩⟩ <;> simp_all

/-- The lock-timeout trace contains no acquisition. -/
theorem timeout_trace_no_acquire (pre : List LockAction) (e : BookError)
    (post : List LockAction)
    (heq : ([.raiseErr .soldOut] : List LockAction) = pre ++ .raiseErr e :: post)
    (hpre : LockAction.acquire ∈ pre) : False := by
  rcases pre with _ | ⟨a1, pre⟩ <;> simp_all

/-- C7: on every exit path of create_booking, if the lock was acquired it is
also released, and any error propagating to the caller does so only after
the release has run (at every point of the trace where an error is raised,
an acquisition before it implies a release before it). -/
theorem lock_released_on_every_path (env : Env) (db : DB) (eid uid now : Nat) :
    (LockAction.acquire ∈ (create_booking env db eid uid now).trace →
        LockAction.release ∈ (create_booking env db eid uid now).trace)
    ∧ (∀ (pre : List LockAction) (e : BookError) (post : List LockAction),
        (create_booking env db eid uid now).trace
            = pre ++ LockAction.raiseErr e :: post →
        LockAction.acquire ∈ pre → LockAction.release ∈ pre) := by
  unfold create_booking
  by_cases hacq : env.acquireOk = false
  · simp only [hacq, if_true]
    constructor
    · intro hmem
      simp at hmem
    · intro pre e post heq hpre
      exact absurd (timeout_trace_no_acquire pre e post heq hpre) id
  · simp only [hacq, if_false]
    cases htxn : _create_booking_in_transaction db eid uid now env.insertFails with
    | error e0 =>
        simp only
        constructor
        · intro _
          simp
        · intro pre e post heq hpre
          exact release_before_raise_err e0 pre e post heq hpre
    | ok pr =>
        simp only
        constructor
        · intro _
          simp
        · intro pre e post heq hpre
          exact absurd (commit_trace_no_raise pre e post heq) id

/-- C7 witness: on the rollback path of a sold-out call, the lock is
released, and the prefix of the trace before the propagated error contains
the release. -/
theorem lock_released_on_every_path_check :
    (LockAction.acquire ∈ (create_booking okEnv DB.init 1 7 0).trace →
        LockAction.release ∈ (create_booking okEnv DB.init 1 7 0).trace)
    ∧ (LockAction.release ∈
        ([.acquire, .rollback, .release] : List LockAction)) :=
  ⟨(lock_released_on_every_path okEnv DB.init 1 7 0).1,
   (lock_released_on_every_path okEnv DB.init 1 7 0).2
     [.acquire, .rollback, .release] .soldOut [] rfl (by simp)⟩

-- ### C8

theorem find?_events_map_bump (l : List Event) (k eid : Nat) :
    (l.map (bumpIfMatch k)).find? (fun e => e.id == eid)
      = (l.find? (fun e => e.id == eid)).map (bumpIfMatch k) := by
  induction l with
  | nil => rfl
  | cons e l ih =>
      by_cases h : (e.id == eid) = true
      · have h2 : ((bumpIfMatch k e).id == eid) = true := by
          rw [bumpIfMatch_id]; exact h
        simp only [List.map_cons, List.find?, h, h2]
        rfl
      · have h2 : ((bumpIfMatch k e).id == eid) = false := by
          rw [bumpIfMatch_id]; simpa using h
        have h3 : (e.id == eid) = false := by simpa using h
        simp only [List.map_cons, List.find?, h2, h3]
        exact ih

theorem find?_append_of_some {α : Type} (p : α → Bool) {l₁ : List α}
    (l₂ : List α) {a : α} (h : l₁.find? p = some a) :
    (l₁ ++ l₂).find? p = some a := by
  induction l₁ with
  | nil => simp at h
  | cons x l ih =>
      rw [List.cons_append]
      by_cases hx : p x = true
      · simp only [List.find?, hx] at h ⊢
        exact h
      · have hx2 : p x = false := by simpa using hx
        simp only [List.find?, hx2] at h ⊢
        exact ih h

theorem bumpIfMatch_booked (k : Nat) (e : Event) :
    e.booked_count ≤ (bumpIfMatch k e).booked_count := by
  unfold bumpIfMatch
  split
  · exact Nat.le_succ _
  · exact Nat.le_refl _

/-- One operation never decreases any event's booked_count. -/
theorem bookedOf_step_mono (db : DB) (op : Op) (eid n : Nat)
    (h : bookedOf db eid = some n) :
    ∃ m, bookedOf (step db op) eid = some m ∧ n ≤ m := by
  cases op with
  | createEvent t c =>
      refine ⟨n, ?_, Nat.le_refl n⟩
      unfold bookedOf at h ⊢
      obtain ⟨e, hfind, hbooked⟩ := Option.map_eq_some'.mp h
      simp only [step, create_event]
      rw [find?_append_of_some _ _ hfind]
      simp [hbooked]
  | createBooking env eid0 uid now =>
      simp only [step]
      rcases create_booking_db_cases env db eid0 uid now with hdb | ⟨-, hdb⟩
      · exact ⟨n, by rw [hdb]; exact h, Nat.le_refl n⟩
      · rw [hdb]
        unfold bookedOf at h ⊢
        obtain ⟨e, hfind, hbooked⟩ := Option.map_eq_some'.mp h
        simp only [find?_events_map_bump, hfind]
        refine ⟨(bumpIfMatch eid0 e).booked_count, rfl, ?_⟩
        rw [← hbooked]
        exact bumpIfMatch_booked eid0 e
  | finalizeBooking bid =>
      refine ⟨n, ?_, Nat.le_refl n⟩
      simp only [step]
      unfold bookedOf
      rw [finalize_booking_events]
      exact h
  | getStats _ => exact ⟨n, h, Nat.le_refl n⟩
  | report => exact ⟨n, h, Nat.le_refl n⟩

theorem bookedOf_run_mono (ops : List Op) (db : DB) (eid n : Nat)
    (h : bookedOf db eid = some n) :
    ∃ m, bookedOf (run db ops) eid = some m ∧ n ≤ m := by
  induction ops generalizing db n with
  | nil => exact ⟨n, h, Nat.le_refl n⟩
  | cons op rest ih =>
      obtain ⟨m1, h1, hle1⟩ := bookedOf_step_mono db op eid n h
      obtain ⟨m2, h2, hle2⟩ := ih (step db op) m1 h1
      exact ⟨m2, h2, Nat.le_trans hle1 hle2⟩

/-- C8: booked_count is monotonically non-decreasing across every sequence
of operations, the read endpoints and finalize_booking never write the
events table, and the only mutation create_booking ever applies to the
events table is the conditional update of _create_booking_in_transaction. -/
theorem booked_count_monotone :
    (∀ (db : DB) (ops : List Op) (eid n : Nat),
        bookedOf db eid = some n →
        ∃ m, bookedOf (run db ops) eid = some m ∧ n ≤ m)
    ∧ (∀ (db : DB) (bid : Nat), (finalize_booking db bid).events = db.events)
    ∧ (∀ (db : DB) (eid : Nat), step db (Op.getStats eid) = db)
    ∧ (∀ db : DB, step db Op.report = db)
    ∧ (∀ (env : Env) (db : DB) (eid uid now : Nat),
        (create_booking env db eid uid now).db.events = db.events
        ∨ (create_booking env db eid uid now).db.events
            = (condIncrement db.events eid).1) := by
  refine ⟨fun db ops eid n h => bookedOf_run_mono ops db eid n h,
    ?_, fun _ _ => rfl, fun _ => rfl, ?_⟩
  · intro db bid
    exact finalize_booking_events db bid
  · intro env db eid uid now
    rcases create_booking_db_cases env db eid uid now with hdb | ⟨-, hdb⟩
    · exact Or.inl (by rw [hdb])
    · exact Or.inr (by rw [hdb]; rfl)

/-- C8 witness: on a fresh capacity-2 event, booked_count 0 only grows
across a booking. -/
theorem booked_count_monotone_check :
    (∃ m, bookedOf (run (oneEventDB 2 0) [bookOp]) 1 = some m ∧ 0 ≤ m)
    ∧ (finalize_booking dbW 1).events = dbW.events
    ∧ ((create_booking okEnv dbW 1 7 0).db.events = dbW.events
        ∨ (create_booking okEnv dbW 1 7 0).db.events
            = (condIncrement dbW.events 1).1) :=
  ⟨booked_count_monotone.1 (oneEventDB 2 0) [bookOp] 1 0 rfl,
   booked_count_monotone.2.1 dbW 1,
   booked_count_monotone.2.2.2.2 okEnv dbW 1 7 0⟩

-- ### C9

theorem finalized_filter_eq_countP (db : DB) (eid : Nat) :
    (db.bookings.filter (fun b =>
        b.event_id == eid && b.status == BookingStatus.FINALIZED)).length
      = db.bookings.countP (fun b =>
          decide (b.event_id = eid ∧ b.status = BookingStatus.FINALIZED)) := by
  rw [← List.countP_eq_length_filter]
  refine List.countP_congr ?_
  intro b _
  by_cases h1 : b.event_id = eid <;>
    by_cases h2 : b.status = BookingStatus.FINALIZED <;>
    simp [h1, h2]

/-- C9: for an existing event, get_event_stats reports that event's
capacity, its booked_count, and the number of its FINALIZED booking rows,
and the stats route answers it; for an absent event id the service returns
the empty result and the route answers 404. -/
theorem get_event_stats_spec (db : DB) (event_id : Nat) :
    (∀ e, db.events.find? (fun x => x.id == event_id) = some e →
        get_event_stats db event_id = some
          { event_id := e.id, capacity := e.capacity,
            booked_count := e.booked_count,
            finalized_count := db.bookings.countP (fun b =>
              decide (b.event_id = event_id
                ∧ b.status = BookingStatus.FINALIZED)) }
        ∧ event_stats_route db event_id = Except.ok
          { event_id := e.id, capacity := e.capacity,
            booked_count := e.booked_count,
            finalized_count := db.bookings.countP (fun b =>
              decide (b.event_id = event_id
                ∧ b.status = BookingStatus.FINALIZED)) })
    ∧ ((∀ e ∈ db.events, e.id ≠ event_id) →
        get_event_stats db event_id = none
        ∧ event_stats_route db event_id = Except.error 404) := by
  constructor
  · intro e hfind
    have hstats : get_event_stats db event_id = some
        { event_id := e.id, capacity := e.capacity,
          booked_count := e.booked_count,
          finalized_count := db.bookings.countP (fun b =>
            decide (b.event_id = event_id
              ∧ b.status = BookingStatus.FINALIZED)) } := by
      unfold get_event_stats
      rw [hfind]
      simp only
      rw [finalized_filter_eq_countP]
    refine ⟨hstats, ?_⟩
    unfold event_stats_route
    rw [hstats]
  · intro h
    have hnone : db.events.find? (fun x => x.id == event_id) = none := by
      rw [List.find?_eq_none]
      intro x hx
      simpa using h x hx
    have hstats : get_event_stats db event_id = none := by
      unfold get_event_stats
      rw [hnone]
    refine ⟨hstats, ?_⟩
    unfold event_stats_route
    rw [hstats]

/-- C9 witness: the stats theorem instantiated on a one-event database for
the present id 1 and the absent id 99. -/
theorem get_event_stats_spec_check :
    (get_event_stats dbW 1 = some
        { event_id := 1, capacity := 2, booked_count := 1, finalized_count := 0 }
      ∧ event_stats_route dbW 1 = Except.ok
        { event_id := 1, capacity := 2, booked_count := 1, finalized_count := 0 })
    ∧ (get_event_stats dbW 99 = none
      ∧ event_stats_route dbW 99 = Except.error 404) :=
  ⟨(get_event_stats_spec dbW 1).1
      { id := 1, title := "t", capacity := 2, booked_count := 1 } rfl,
   (get_event_stats_spec dbW 99).2 (by decide)⟩

-- ### C4

/-- Under distinct event primary keys at most one row matches the
conditional update's WHERE clause. -/
theorem countP_wantsUpdate_le_one (events : List Event) (eid : Nat)
    (hn : (events.map Event.id).Nodup) :
    events.countP (wantsUpdate eid) ≤ 1 := by
  induction events with
  | nil => simp
  | cons e l ih =>
      rw [List.map_cons, List.nodup_cons] at hn
      rw [List.countP_cons]
      by_cases hp : wantsUpdate eid e = true
      · have hzero : l.countP (wantsUpdate eid) = 0 := by
          rw [List.countP_eq_zero]
          intro x hx hpx
          refine hn.1 ?_
          rw [(wantsUpdate_spec hp).1, ← (wantsUpdate_spec hpx).1]
          exact List.mem_map_of_mem Event.id hx
        rw [hzero, hp]
        simp
      · have hp2 : wantsUpdate eid e = false := by simpa using hp
        rw [hp2]
        simpa using ih hn.2

/-- Under distinct event primary keys the conditional update hits exactly
one row iff an event with the requested id still has spare capacity. -/
theorem countP_wantsUpdate_eq_one_iff (events : List Event) (eid : Nat)
    (hn : (events.map Event.id).Nodup) :
    events.countP (wantsUpdate eid) = 1 ↔
      ∃ e ∈ events, e.id = eid ∧ e.booked_count < e.capacity := by
  constructor
  · intro h1
    obtain ⟨e, he, hp⟩ := List.countP_pos_iff.mp (by rw [h1]; exact Nat.zero_lt_one)
    exact ⟨e, he, wantsUpdate_spec hp⟩
  · intro ⟨e, he, hid, hlt⟩
    have hpos : 0 < events.countP (wantsUpdate eid) := by
      refine List.countP_pos_iff.mpr ⟨e, he, ?_⟩
      unfold wantsUpdate
      simp [hid, hlt]
    exact Nat.le_antisymm (countP_wantsUpdate_le_one events eid hn) hpos

/-- C4 counterexample: on the empty database, with the admission lock
acquired, create_booking for event id 1 still fails with SoldOutError (the
Rejected kind) — yet the lock did not time out and no event's capacity is
exhausted (no event with id 1 exists at all), falsifying "Rejected exactly
when capacity is exhausted or the lock times out". -/
theorem rejected_without_exhaustion_or_timeout :
    (create_booking okEnv DB.init 1 7 0).result = .error .soldOut
    ∧ okEnv.acquireOk = true
    ∧ ¬ ∃ e ∈ DB.init.events, e.id = 1 ∧ e.capacity ≤ e.booked_count := by
  refine ⟨rfl, rfl, ?_⟩
  rintro ⟨e, he, -⟩
  simp [DB.init] at he

/-- C4 (amended): create_booking fails with the Rejected kind (SoldOutError)
exactly when the lock times out or no event row with the requested id has
booked_count < capacity (capacity exhausted, or no such event exists); and
when lock acquisition times out it fails Rejected with the committed state
unchanged, regardless of remaining capacity. -/
theorem rejected_iff (env : Env) (db : DB) (eid uid now : Nat)
    (hn : (db.events.map Event.id).Nodup) :
    ((create_booking env db eid uid now).result = .error .soldOut ↔
      env.acquireOk = false
      ∨ ¬ ∃ e ∈ db.events, e.id = eid ∧ e.booked_count < e.capacity)
    ∧ (env.acquireOk = false →
        (create_booking env db eid uid now).db = db
        ∧ (create_booking env db eid uid now).result = .error .soldOut) := by
  have hiff := countP_wantsUpdate_eq_one_iff db.events eid hn
  unfold create_booking _create_booking_in_transaction condIncrement
  by_cases hacq : env.acquireOk = false
  · simp [hacq]
  · simp only [hacq, if_false]
    refine ⟨?_, fun hcontra => absurd hcontra (by simp)⟩
    by_cases hcnt : db.events.countP (wantsUpdate eid) = 1
    · by_cases hins : env.insertFails
      · simp [hacq, hcnt, hins, hiff.mp hcnt]
      · simp [hacq, hcnt, hins, hiff.mp hcnt]
    · have hnex : ¬ ∃ e ∈ db.events, e.id = eid ∧ e.booked_count < e.capacity :=
        fun hex => hcnt (hiff.mpr hex)
      simp [hacq, hcnt, hnex]

/-- C4 witness: the amended equivalence instantiated on a lock-timeout call
against the empty database. -/
theorem rejected_iff_check :
    ((create_booking { acquireOk := false, insertFails := false }
        DB.init 1 7 0).result = .error .soldOut ↔
      ({ acquireOk := false, insertFails := false } : Env).acquireOk = false
      ∨ ¬ ∃ e ∈ DB.init.events, e.id = 1 ∧ e.booked_count < e.capacity)
    ∧ (({ acquireOk := false, insertFails := false } : Env).acquireOk = false →
        (create_booking { acquireOk := false, insertFails := false }
            DB.init 1 7 0).db = DB.init
        ∧ (create_booking { acquireOk := false, insertFails := false }
            DB.init 1 7 0).result = .error .soldOut) :=
  rejected_iff { acquireOk := false, insertFails := false } DB.init 1 7 0
    (by decide)

end TicketReserve
